/-
  Spec2Proof.lean — a verification development for the dircd IRC server core.

  The Go sources are shallowly embedded: strings are modelled as `List Char`
  (all protocol data of interest is ASCII, where Go's byte indexing and
  Lean's character lists coincide), Go maps as association lists, and the
  effectful pieces of the connection/session engine as pure functions that
  return an explicit record of the effects they perform (messages sent,
  timers stopped or reset, pool recycls, context cancellations).

  Each embedded definition mirrors one function of the source:
    * `parse`        — parser.go `Parse` (with explicit message-pool bookkeeping)
    * `renderBuffer` — message.go `(*Message).RenderBuffer`
    * `escapeTagString` — message.go `escapeTagString`
    * `routeCommand` — handlers.go `RouteCommand`
    * `registerUser` — conn.go `(*Conn).registerUser`
    * `doHeartbeat`  — conn.go `(*Conn).doHeartbeat`
    * `connWrite`    — conn.go `(*Conn).Write`
    * `closeConns` / `shutdownLoop` — server.go `(*Server).closeConns` / `Shutdown`
    * `removeUser`   — channel.go `(*Channel).RemoveUser`
-/
import Mathlib

set_option maxHeartbeats 1000000
set_option maxRecDepth 4000

namespace Dircd

/-! ### Limiter constants (settings.go) -/

def MaxMsgLength : Nat := 512

def MaxMsgParams : Nat := 15

def MaxTagsLength : Nat := 4096

/-! ### String helpers mirroring the Go standard library on ASCII data -/

/-- Go `unicode.IsSpace` restricted to the ASCII range:
space, tab, newline, vertical tab, form feed, carriage return. -/
def isSpaceChar (c : Char) : Bool :=
  c = ' ' || c = '\t' || c = '\n' || c = Char.ofNat 11 || c = Char.ofNat 12 || c = '\r'

/-- Go `strings.TrimSpace` (ASCII): drop leading and trailing whitespace. -/
def trimSpace (s : List Char) : List Char :=
  ((s.dropWhile isSpaceChar).reverse.dropWhile isSpaceChar).reverse

/-- Go `strings.SplitN(s, sep, 2)` for a one-character separator:
`none` when the separator does not occur (Go returns a one-element slice),
otherwise the part before and the part after the first occurrence. -/
def splitOnce (sep : Char) : List Char → Option (List Char × List Char)
  | [] => none
  | c :: rest =>
    if c = sep then some ([], rest)
    else (splitOnce sep rest).map (fun p => (c :: p.1, p.2))

/-- The part before the first occurrence of `sep` (the whole string if absent):
`strings.SplitN(s, sep, 2)[0]`. -/
def splitLeft (sep : Char) (s : List Char) : List Char :=
  match splitOnce sep s with
  | none => s
  | some p => p.1

def splitAllAux (sep : Char) : List Char → List Char → List (List Char)
  | [], acc => [acc.reverse]
  | c :: rest, acc =>
    if c = sep then acc.reverse :: splitAllAux sep rest []
    else splitAllAux sep rest (c :: acc)

/-- Go `strings.Split(s, sep)` for a one-character separator (keeps empty parts). -/
def splitAll (sep : Char) (s : List Char) : List (List Char) :=
  splitAllAux sep s []

def fieldsAux : List Char → List Char → List (List Char)
  | [], acc => if acc.isEmpty then [] else [acc.reverse]
  | c :: rest, acc =>
    if isSpaceChar c then
      if acc.isEmpty then fieldsAux rest [] else acc.reverse :: fieldsAux rest []
    else fieldsAux rest (c :: acc)

/-- Go `strings.Fields`: split around runs of whitespace, no empty fields. -/
def fields (s : List Char) : List (List Char) :=
  fieldsAux s []

/-- Go `strings.ToUpper` (ASCII). -/
def toUpperList (s : List Char) : List Char :=
  s.map Char.toUpper

/-- Go `strings.ReplaceAll(s, old, new)` for a one-character pattern:
every occurrence of `pat` becomes `rep`, left to right, no rescanning. -/
def replaceAllChar (pat : Char) (rep : List Char) (s : List Char) : List Char :=
  s.flatMap (fun c => if c = pat then rep else [c])

/-! ### Message record (message.go) -/

structure Message where
  tags : List (List Char × List Char) := []
  source : List Char := []
  command : List Char := []
  code : Nat := 0
  params : List (List Char) := []
  trailing : List Char := []
deriving DecidableEq, Repr

/-! ### Tag-value escaping (message.go `escapeTagString`) -/

/-- message.go `escapeTagString`: five sequential `strings.ReplaceAll`
passes, in source order: `;`→`\:`, space→`\s`, `\`→`\\`, CR→`\r`, LF→`\n`. -/
def escapeTagString (s : List Char) : List Char :=
  let e1 := replaceAllChar ';' [ '\\', ':' ] s
  let e2 := replaceAllChar ' ' [ '\\', 's' ] e1
  let e3 := replaceAllChar '\\' [ '\\', '\\' ] e2
  let e4 := replaceAllChar '\r' [ '\\', 'r' ] e3
  let e5 := replaceAllChar '\n' [ '\\', 'n' ] e4
  e5

/-! ### Rendering (message.go `(*Message).RenderBuffer`) -/

/-- Go `fmt.Sprintf("%03d", code)`: decimal digits, zero-padded to width 3. -/
def padNum (n : Nat) : List Char :=
  let ds := Nat.toDigits 10 n
  if ds.length < 3 then List.replicate (3 - ds.length) '0' ++ ds else ds

/-- The tag segment of a rendered message: `@` then `key=value` tokens
joined by `;` (the Go code writes a `;` after each token and truncates the
last one), then a space.  The Go map iteration is modelled by list order. -/
def renderTags (tags : List (List Char × List Char)) : List Char :=
  if tags.isEmpty then []
  else
    '@' :: (List.intercalate [ ';' ]
      (tags.map (fun kv => escapeTagString kv.1 ++ '=' :: escapeTagString kv.2))) ++ [ ' ' ]

/-- message.go `(*Message).RenderBuffer`. -/
def renderBuffer (msg : Message) : List Char :=
  renderTags msg.tags
  ++ (if msg.source.isEmpty then [] else ':' :: msg.source ++ [ ' ' ])
  ++ (if 0 < msg.code then padNum msg.code
      else if msg.command.isEmpty then [] else msg.command)
  ++ (if msg.params.isEmpty then []
      else ' ' :: List.intercalate [ ' ' ]
        (if MaxMsgParams < msg.params.length then msg.params.take MaxMsgParams else msg.params))
  ++ (if msg.trailing.isEmpty then [] else ' ' :: ':' :: msg.trailing)
  ++ [ '\r', '\n' ]

/-! ### Parsing (parser.go `Parse`) -/

inductive ParseError where
  | tooShort
  | tooLong
  | whitespace
  | invalidMessage
  | prefixed
  | tooManyParams
  /-- Go would panic with an index-out-of-range here (`line[0]` or `args[0]`
  on empty data); unreachable for inputs produced by the read loop. -/
  | indexOutOfRange
deriving DecidableEq, Repr

inductive ParseResult where
  | ok (msg : Message)
  | error (e : ParseError)
deriving DecidableEq, Repr

/-- The observable outcome of `Parse`: the returned value or error, plus the
message-pool bookkeeping — whether `msgPool.New()` was ever called, and
whether `msgPool.Recycle` was called before an error return. -/
structure ParseOutcome where
  result : ParseResult
  acquired : Bool
  recycled : Bool
deriving DecidableEq, Repr

/-- parser.go `Parse`, tag split on `;` and each tag once on `=`
(value defaults to empty; no escape decoding on input). -/
def parseTags (raw : List Char) : List (List Char × List Char) :=
  (splitAll ';' raw).map (fun tok =>
    match splitOnce '=' tok with
    | some kv => (kv.1, kv.2)
    | none => (tok, []))

/-- The part after the first occurrence of `sep` (empty if absent):
`msg.Trailing` as assigned from `strings.SplitN(line, ":", 2)[1]`. -/
def trailSegment (s : List Char) : List Char :=
  match splitOnce ':' s with
  | none => []
  | some p => p.2

/-- parser.go `Parse`, the command/params/trailing assembly: the fields of
the part before the first `:` give the command (uppercased) and the middle
parameters; the trailing (initially the part after the `:`) is overwritten
with the last field whenever there is more than one field; more than
`MaxMsgParams` middle parameters is an error (message recycled). -/
def buildMsg (tags : List (List Char × List Char)) (trailing0 : List Char) :
    List (List Char) → ParseOutcome
  | [] => ⟨ParseResult.error ParseError.indexOutOfRange, true, false⟩
  | [cmd] =>
    ⟨ParseResult.ok { tags := tags, command := toUpperList cmd, trailing := trailing0 }, true, false⟩
  | cmd :: a :: args2 =>
    if MaxMsgParams < (a :: args2).length then
      ⟨ParseResult.error ParseError.tooManyParams, true, true⟩
    else
      ⟨ParseResult.ok { tags := tags, command := toUpperList cmd, params := a :: args2, trailing := (a :: args2).getLastD [] }, true, false⟩

/-- parser.go `Parse` from the point where the message record has been
acquired and any tag segment has been stripped: length check against
`MaxMsgLength`, renewed `:`-prefix check, then `buildMsg` on the fields.
(On an empty remainder the Go code would panic indexing `line[0]`.) -/
def parseMain (tags : List (List Char × List Char)) : List Char → ParseOutcome
  | [] => ⟨ParseResult.error ParseError.indexOutOfRange, true, false⟩
  | c :: rest =>
    if MaxMsgLength < (c :: rest).length then ⟨ParseResult.error ParseError.tooLong, true, true⟩
    else if c = ':' then ⟨ParseResult.error ParseError.prefixed, true, true⟩
    else buildMsg tags (trailSegment (c :: rest)) (fields (splitLeft ':' (c :: rest)))

/-- parser.go `Parse` after the two length pre-checks, on the trimmed line:
whitespace check, client-prefix check, optional tag segment (split once on
the first space; a missing space is `ErrInvalidMessage` returned *without*
recycling the acquired message). -/
def parseTrimmed (t : List Char) : ParseOutcome :=
  match t with
  | [] => ⟨ParseResult.error ParseError.whitespace, false, false⟩
  | c :: rest =>
    if c = ':' then ⟨ParseResult.error ParseError.prefixed, false, false⟩
    else if c = '@' then
      match splitOnce ' ' rest with
      | none => ⟨ParseResult.error ParseError.invalidMessage, true, false⟩
      | some p => parseMain (parseTags p.1) p.2
    else parseMain [] (c :: rest)

/-- parser.go `Parse`. -/
def parse (line : List Char) : ParseOutcome :=
  if line.length < 4 then ⟨ParseResult.error ParseError.tooShort, false, false⟩
  else if MaxTagsLength + MaxMsgLength < line.length then
    ⟨ParseResult.error ParseError.tooLong, false, false⟩
  else parseTrimmed (trimSpace line)

/-! ### Go maps as association lists (shared/concurrentmap, ignoring locking) -/

/-- Go `m[key]` two-value lookup. -/
def goGet {K V : Type} [DecidableEq K] : List (K × V) → K → Option V
  | [], _ => none
  | p :: rest, k => if p.1 = k then some p.2 else goGet rest k

/-- concurrentmap `Exists`. -/
def goExists {K V : Type} [DecidableEq K] (m : List (K × V)) (k : K) : Bool :=
  (goGet m k).isSome

/-- concurrentmap `Set` (insert-or-overwrite). -/
def goSet {K V : Type} [DecidableEq K] : List (K × V) → K → V → List (K × V)
  | [], k, v => [(k, v)]
  | p :: rest, k, v => if p.1 = k then (k, v) :: rest else p :: goSet rest k v

/-- Go `delete(m, key)`. -/
def goDelete {K V : Type} [DecidableEq K] : List (K × V) → K → List (K × V)
  | [], _ => []
  | p :: rest, k => if p.1 = k then goDelete rest k else p :: goDelete rest k

/-- concurrentmap `ChangeKey`: if the old key is present, delete it and
store its value under the new key; no-op (reporting `false`) otherwise. -/
def goChangeKey {K V : Type} [DecidableEq K] (m : List (K × V)) (oldKey newKey : K) :
    List (K × V) × Bool :=
  match goGet m oldKey with
  | some v => (goSet (goDelete m oldKey) newKey v, true)
  | none => (m, false)

/-! ### Users and the server registries (user.go, conn.go `registerUser`) -/

structure UserRec where
  name : String
  nick : String
deriving DecidableEq, Repr

/-- Go `strings.ToLower` (ASCII). -/
def lowerStr (s : String) : String :=
  String.mk (s.toList.map Char.toLower)

/-- The two user registries held by the server (`srv.Users`, `srv.Nicks`). -/
structure Registries where
  users : List (String × UserRec) := []
  nicks : List (String × UserRec) := []
deriving DecidableEq, Repr

/-- conn.go `(*Conn).registerUser`: store the user in both registries under
its name and nick exactly as they are (`conn.server.Users.Set(name, conn.user)`;
`conn.server.Nicks.Set(nick, conn.user)`). -/
def registerUser (r : Registries) (u : UserRec) : Registries :=
  { users := goSet r.users u.name u, nicks := goSet r.nicks u.nick u }

/-! ### Command router (handlers.go `RouteCommand`, `registerHandlers`) -/

def CmdPrivMsg : String := "PRIVMSG"

def CmdNotice : String := "NOTICE"

def CmdUserhost : String := "USERHOST"

def CmdPass : String := "PASS"

def CmdPing : String := "PING"

def CmdPong : String := "PONG"

def CmdJoin : String := "JOIN"

def CmdQuit : String := "QUIT"

def CmdNick : String := "NICK"

def CmdUser : String := "USER"

def CmdCap : String := "CAP"

/-- handlers.go `registerHandlers`: the `UnregAllowedCommands` set. -/
def unregAllowedCommands : List String :=
  [CmdPing, CmdPong, CmdCap, CmdPass, CmdNick, CmdUser, CmdQuit]

/-- replies.go numeric for `ReplyNotRegistered` (RFC 2812 `ERR_NOTREGISTERED`). -/
def ReplyNotRegisteredCode : Nat := 451

def ErrNotRegisteredText : String := "You must register first"

/-- replies.go `(*Conn).ReplyNotRegistered`: numeric 451 to the caller's
nick (or `*` when the nick is not yet set), source = server hostname. -/
def replyNotRegisteredMsg (hostname nick : String) : Message :=
  let n := if nick.length = 0 then "*" else nick
  { source := hostname.toList, code := ReplyNotRegisteredCode,
    params := [n.toList], trailing := ErrNotRegisteredText.toList }

/-- What one call of `RouteCommand` does. -/
inductive RouteResult where
  | replyNotImplemented (cmd : String)
  | replyNotRegistered (reply : Message)
  | invoked (cmd : String)
deriving DecidableEq, Repr

/-- handlers.go `RouteCommand`: look the command up in the handler map;
missing → numeric 421; connection unregistered and command outside the
allow-during-registration set → numeric 451 and return; otherwise invoke
the handler. -/
def routeCommand (handlers : List String) (registered : Bool)
    (hostname nick cmd : String) : RouteResult :=
  if handlers.contains cmd then
    if !registered then
      if unregAllowedCommands.contains cmd then RouteResult.invoked cmd
      else RouteResult.replyNotRegistered (replyNotRegisteredMsg hostname nick)
    else RouteResult.invoked cmd
  else RouteResult.replyNotImplemented cmd

/-! ### Connection state (conn.go) -/

def StateNew : Nat := 1

def StateHandshake : Nat := 2

def StateConnected : Nat := 4

def StateClosed : Nat := 8

/-- conn.go `writeQueueLength`: capacity of each connection's write queue. -/
def writeQueueLength : Nat := 10

/-- conn.go `(*Conn).isConnected`: bitmask test of the state enum. -/
def isConnected (stateEnum : Nat) : Bool :=
  (stateEnum &&& StateConnected) != 0

/-- The observable outcome of `(*Conn).Write`: the queue afterwards and
whether the buffer was dropped (with an error log) instead of enqueued. -/
structure WriteOutcome where
  queueAfter : List (List Char)
  dropped : Bool
deriving DecidableEq, Repr

/-- conn.go `(*Conn).Write`: drop over-long buffers, drop when the
connection is not Connected, otherwise enqueue on the bounded queue. -/
def connWrite (stateEnum : Nat) (queue : List (List Char)) (buf : List Char) : WriteOutcome :=
  if MaxMsgLength < buf.length then ⟨queue, true⟩
  else if !(isConnected stateEnum) then ⟨queue, true⟩
  else ⟨queue ++ [buf], false⟩

/-! ### Heartbeat (conn.go `(*Conn).doHeartbeat`) -/

/-- The observable effects of one heartbeat tick. -/
structure HeartbeatOutcome where
  timerStopped : Bool
  timerReset : Bool
  cancelCause : Option String
  quitReason : Option String
  sent : Option Message
  lastPingSentAfter : String
deriving DecidableEq, Repr

/-- conn.go `(*Conn).doHeartbeat`: under the connection mutex, compare the
last received ping nonce with the last sent one; on mismatch stop the
timer, cancel with "heartbeat timeout" and quit with "Connection timeout.";
otherwise store the fresh random token (`random.String(10)`), reset the
timer and send `PING :<token>` built on a pool-fresh message. -/
def doHeartbeat (lastPingSent lastPingRecv token : String) : HeartbeatOutcome :=
  if lastPingRecv ≠ lastPingSent then
    { timerStopped := true, timerReset := false,
      cancelCause := some "heartbeat timeout",
      quitReason := some "Connection timeout.",
      sent := none, lastPingSentAfter := lastPingSent }
  else
    { timerStopped := false, timerReset := true,
      cancelCause := none, quitReason := none,
      sent := some { command := CmdPing.toList, trailing := token.toList },
      lastPingSentAfter := token }

/-! ### Graceful shutdown (server.go `closeConns`, `Shutdown`) -/

/-- What `conn.getState()` reports: the state enum and the unix second of
the last transition (unpacked from the packed atomic word). -/
structure ConnInfo where
  stateEnum : Nat
  unixSec : Nat
deriving DecidableEq, Repr

/-- server.go `closeConns` loop condition:
`state&(StateNew|StateHandshake) != 0 || unixSec == 0` — the connection is
*skipped* (kept, not yet quiescent). -/
def connSkipShutdown (c : ConnInfo) : Bool :=
  ((c.stateEnum &&& (StateNew ||| StateHandshake)) != 0) || (c.unixSec == 0)

/-- server.go `(*Server).closeConns`: returns the connections kept in the
active set, the connections whose `shutdown()` was called (and which were
removed from the set), and the quiescent flag. -/
def closeConns : List ConnInfo → List ConnInfo × List ConnInfo × Bool
  | [] => ([], [], true)
  | c :: rest =>
    let r := closeConns rest
    if connSkipShutdown c then (c :: r.1, r.2.1, false)
    else (r.1, c :: r.2.1, r.2.2)

/-- One iteration's worth of outside events during the `Shutdown` polling
loop: the cancellation context fires, or the poll timer ticks with the
connection set having evolved to `next`. -/
inductive ShutdownEvent where
  | ctxDone
  | tick (next : List ConnInfo)

inductive ShutdownResult where
  /-- all connections drained; `Shutdown` returns the listener-close error. -/
  | drained
  /-- the cancellation context fired first; `Shutdown` returns `ctx.Err()`. -/
  | ctxCancelled
  /-- the supplied event trace ran out while the loop was still polling. -/
  | stillPolling (remaining : List ConnInfo)
deriving DecidableEq, Repr

/-- server.go `(*Server).Shutdown` polling loop (after listeners are
closed): each round first runs `closeConns`; if everything was quiescent
it returns, otherwise it selects on the cancellation context and the poll
timer. -/
def shutdownLoop : List ConnInfo → List ShutdownEvent → ShutdownResult
  | conns, [] =>
    if (closeConns conns).2.2 then ShutdownResult.drained
    else ShutdownResult.stillPolling (closeConns conns).1
  | conns, e :: rest =>
    if (closeConns conns).2.2 then ShutdownResult.drained
    else
      match e with
      | ShutdownEvent.ctxDone => ShutdownResult.ctxCancelled
      | ShutdownEvent.tick next => shutdownLoop next rest

/-! ### Channels (channel.go `(*Channel).RemoveUser`) -/

structure ChannelRec where
  name : String
  nicks : List (String × UserRec) := []
  ops : List (String × UserRec) := []
  halfops : List (String × UserRec) := []
  voiced : List (String × UserRec) := []
deriving DecidableEq, Repr

/-- channel.go `(*Channel).RemoveUser`: error (first component `true`)
when the nick is not a member, leaving the channel untouched; otherwise
broadcast (no map effect) and delete the nick from the members map and
from all three role subsets. -/
def removeUser (ch : ChannelRec) (nick : String) : Bool × ChannelRec :=
  if !(goExists ch.nicks nick) then (true, ch)
  else
    (false,
      { ch with
        nicks := goDelete ch.nicks nick,
        ops := goDelete ch.ops nick,
        halfops := goDelete ch.halfops nick,
        voiced := goDelete ch.voiced nick })

/-- The channel role invariant: every nick in a role subset is a member. -/
def roleInvariant (ch : ChannelRec) : Prop :=
  ∀ k : String,
    (goExists ch.ops k = true → goExists ch.nicks k = true)
    ∧ (goExists ch.halfops k = true → goExists ch.nicks k = true)
    ∧ (goExists ch.voiced k = true → goExists ch.nicks k = true)

/-! ## Supporting lemmas -/

theorem goGet_goDelete {K V : Type} [DecidableEq K] (m : List (K × V)) (k j : K) :
    goGet (goDelete m k) j = if j = k then none else goGet m j := by
  induction m with
  | nil => simp [goDelete, goGet]
  | cons p rest ih =>
    simp only [goDelete, goGet]
    split_ifs with h1 h2 <;> simp_all [goGet]

theorem goExists_goDelete {K V : Type} [DecidableEq K] (m : List (K × V)) (k j : K) :
    goExists (goDelete m k) j = if j = k then false else goExists m j := by
  simp only [goExists, goGet_goDelete]
  split_ifs <;> simp

/-! ## Claim theorems -/

/-- Claim C1 (code side): rendering a message that has a middle parameter
and a distinct trailing, then parsing the rendered line, does not restore
the trailing — the parser overwrites it with the last middle parameter
(`msg.Trailing = args[len(args)-1]`, parser.go line 76). -/
theorem parse_render_clobbers_trailing :
    (parse (renderBuffer
        { command := "PRIVMSG".toList, params := [ "#chan".toList ],
          trailing := "hello".toList })).result
      = ParseResult.ok
        { command := "PRIVMSG".toList, params := [ "#chan".toList ],
          trailing := "#chan".toList }
    ∧ ( "#chan".toList ≠ "hello".toList ) := by
  constructor
  · decide
  · decide

/-- Claim C3 (code side): `registerUser` stores the registry keys exactly
as given, not lowercased, so for the mixed-case user "Alice" the lookup at
the lowercased key fails while the raw key succeeds. -/
theorem registerUser_keys_not_lowercased :
    goGet (registerUser (Registries.mk [] []) ⟨ "Alice", "Alice" ⟩).nicks (lowerStr "Alice") = none
    ∧ goGet (registerUser (Registries.mk [] []) ⟨ "Alice", "Alice" ⟩).nicks "Alice"
        = some ⟨ "Alice", "Alice" ⟩
    ∧ goGet (registerUser (Registries.mk [] []) ⟨ "Alice", "Alice" ⟩).users (lowerStr "Alice") = none
    ∧ goGet (registerUser (Registries.mk [] []) ⟨ "Alice", "Alice" ⟩).users "Alice"
        = some ⟨ "Alice", "Alice" ⟩
    ∧ lowerStr "Alice" = "alice" := by
  refine ⟨by decide, by decide, by decide, by decide, by decide⟩

/-- Claim C4 (code side): because the backslash pass of `escapeTagString`
runs after the semicolon and space passes, the backslashes those passes
introduce are escaped again: `;` renders as `\\:` and space as `\\s`
instead of `\:` and `\s`.  The backslash, CR and LF replacements do map to
their own escape sequences. -/
theorem escapeTagString_double_escapes :
    escapeTagString [ ';' ] = [ '\\', '\\', ':' ]
    ∧ escapeTagString [ ' ' ] = [ '\\', '\\', 's' ]
    ∧ escapeTagString [ '\\' ] = [ '\\', '\\' ]
    ∧ escapeTagString [ '\r' ] = [ '\\', 'r' ]
    ∧ escapeTagString [ '\n' ] = [ '\\', 'n' ]
    ∧ ([ '\\', '\\', ':' ] : List Char) ≠ [ '\\', ':' ] := by
  decide

/-- Claim C5 (code side): on the malformed-tag-segment error path
(`"@abc"`: tag marker but no space) `Parse` returns `ErrInvalidMessage`
with the pool message acquired but never recycled, while for instance the
renewed-prefix error path after tag stripping does recycle. -/
theorem parse_tag_error_leaks_message :
    parse ( "@abc".toList ) = ⟨ParseResult.error ParseError.invalidMessage, true, false⟩
    ∧ parse ( "@k :x".toList ) = ⟨ParseResult.error ParseError.prefixed, true, true⟩ := by
  decide

/-- Claim C6 (counterexample): a line of three spaces is empty after
trimming, yet `Parse` rejects it as too-short, not whitespace-only — the
length check runs before the trim. -/
theorem parse_whitespace_check_not_first :
    (trimSpace ( "   ".toList )).length = 0
    ∧ (parse ( "   ".toList )).result = ParseResult.error ParseError.tooShort
    ∧ (parse ( "   ".toList )).result ≠ ParseResult.error ParseError.whitespace := by
  decide

/-- Claim C2: for an unregistered connection and a command that has a
registered handler but is not in the allow-during-registration set
(PING, PONG, CAP, PASS, NICK, USER, QUIT), `RouteCommand` replies with
numeric 451 and returns without invoking any handler. -/
theorem routeCommand_unregistered_gate (handlers : List String) (hostname nick cmd : String)
    (hmem : handlers.contains cmd = true)
    (hallow : unregAllowedCommands.contains cmd = false) :
    routeCommand handlers false hostname nick cmd
      = RouteResult.replyNotRegistered (replyNotRegisteredMsg hostname nick)
    ∧ (replyNotRegisteredMsg hostname nick).code = 451
    ∧ ∀ c : String, routeCommand handlers false hostname nick cmd ≠ RouteResult.invoked c := by
  have hmem2 : cmd ∈ handlers := by simpa using hmem
  have hallow2 : cmd ∉ unregAllowedCommands := by simpa using hallow
  refine ⟨?_, rfl, ?_⟩
  · simp [routeCommand, hmem2, hallow2]
  · intro c
    simp [routeCommand, hmem2, hallow2]

theorem routeCommand_unregistered_gate_witness :
    routeCommand [ "JOIN" ] false "irc.localhost" "" "JOIN"
      = RouteResult.replyNotRegistered (replyNotRegisteredMsg "irc.localhost" "") :=
  (routeCommand_unregistered_gate [ "JOIN" ] "irc.localhost" "" "JOIN"
    (by decide) (by decide)).1

/-- Claim C7: on a heartbeat tick, a nonce mismatch stops the timer,
cancels the context with cause "heartbeat timeout" and quits with
"Connection timeout."; a match stores the fresh 10-character token as
last-sent, resets the timer and sends `PING` with the token as trailing. -/
theorem doHeartbeat_spec (lastSent lastRecv token : String)
    (_hlen : token.length = 10) :
    (lastRecv ≠ lastSent →
      doHeartbeat lastSent lastRecv token
        = { timerStopped := true, timerReset := false,
            cancelCause := some "heartbeat timeout",
            quitReason := some "Connection timeout.",
            sent := none, lastPingSentAfter := lastSent })
    ∧ (lastRecv = lastSent →
      doHeartbeat lastSent lastRecv token
        = { timerStopped := false, timerReset := true,
            cancelCause := none, quitReason := none,
            sent := some { command := CmdPing.toList, trailing := token.toList },
            lastPingSentAfter := token }) := by
  constructor <;> intro h <;> simp [doHeartbeat, h]

theorem doHeartbeat_spec_witness :
    doHeartbeat "aaaaaaaaaa" "bbbbbbbbbb" "cccccccccc"
      = { timerStopped := true, timerReset := false,
          cancelCause := some "heartbeat timeout",
          quitReason := some "Connection timeout.",
          sent := none, lastPingSentAfter := "aaaaaaaaaa" } :=
  (doHeartbeat_spec "aaaaaaaaaa" "bbbbbbbbbb" "cccccccccc" (by decide)).1 (by decide)

/-- Claim C8: `(*Conn).Write` drops the buffer (queue unchanged) when the
buffer exceeds `MaxMsgLength` or the connection is not Connected, and
otherwise appends it to the write queue, whose capacity
`writeQueueLength` is exactly 10. -/
theorem connWrite_spec (st : Nat) (q : List (List Char)) (buf : List Char)
    (hst : st = StateNew ∨ st = StateHandshake ∨ st = StateConnected ∨ st = StateClosed) :
    ((MaxMsgLength < buf.length ∨ st ≠ StateConnected) → connWrite st q buf = ⟨q, true⟩)
    ∧ (buf.length ≤ MaxMsgLength → st = StateConnected → connWrite st q buf = ⟨q ++ [buf], false⟩)
    ∧ writeQueueLength = 10 := by
  refine ⟨?_, ?_, rfl⟩
  · rintro (h | h)
    · simp [connWrite, h]
    · have hcon : isConnected st = false := by
        rcases hst with h1 | h1 | h1 | h1 <;> subst h1 <;>
          first
          | rfl
          | exact absurd rfl h
      by_cases hlen : MaxMsgLength < buf.length
      · simp [connWrite, hlen]
      · simp [connWrite, hlen, hcon]
  · intro h1 h2
    subst h2
    have hcon : isConnected StateConnected = true := by decide
    simp [connWrite, Nat.not_lt.mpr h1, hcon]

theorem connWrite_spec_witness :
    connWrite StateConnected [] [ 'h', 'i' ] = ⟨[ [ 'h', 'i' ] ], false⟩ :=
  (connWrite_spec StateConnected [] [ 'h', 'i' ]
    (Or.inr (Or.inr (Or.inl rfl)))).2.1 (by decide) rfl

/-- Claim C9: during graceful shutdown a connection counts as quiescent
exactly when its state enum is neither New nor Handshake and its
last-transition timestamp is non-zero; each `closeConns` poll shuts down
and removes exactly the quiescent connections, keeps the rest, and
reports whether the set drained; the `Shutdown` loop returns normally
once a poll drains the set, and returns the context's error when the
cancellation fires while connections remain. -/
theorem shutdown_spec (conns : List ConnInfo) (events : List ShutdownEvent) (c : ConnInfo)
    (hc : c.stateEnum = StateNew ∨ c.stateEnum = StateHandshake
      ∨ c.stateEnum = StateConnected ∨ c.stateEnum = StateClosed) :
    (connSkipShutdown c = false
      ↔ (c.stateEnum ≠ StateNew ∧ c.stateEnum ≠ StateHandshake ∧ c.unixSec ≠ 0))
    ∧ (closeConns conns).1 = conns.filter (fun x => connSkipShutdown x)
    ∧ (closeConns conns).2.1 = conns.filter (fun x => !(connSkipShutdown x))
    ∧ (closeConns conns).2.2 = conns.all (fun x => !(connSkipShutdown x))
    ∧ ((closeConns conns).2.2 = true → shutdownLoop conns events = ShutdownResult.drained)
    ∧ ((closeConns conns).2.2 = false →
        shutdownLoop conns (ShutdownEvent.ctxDone :: events) = ShutdownResult.ctxCancelled) := by
  have hchar : ∀ l : List ConnInfo,
      (closeConns l).1 = l.filter (fun x => connSkipShutdown x)
      ∧ (closeConns l).2.1 = l.filter (fun x => !(connSkipShutdown x))
      ∧ (closeConns l).2.2 = l.all (fun x => !(connSkipShutdown x)) := by
    intro l
    induction l with
    | nil => simp [closeConns]
    | cons c0 rest ih =>
      by_cases h : connSkipShutdown c0 <;>
        simp [closeConns, h, ih.1, ih.2.1, ih.2.2]
  refine ⟨?_, (hchar conns).1, (hchar conns).2.1, (hchar conns).2.2, ?_, ?_⟩
  · obtain ⟨st, un⟩ := c
    simp only at hc
    rcases hc with h1 | h1 | h1 | h1 <;> subst h1 <;>
      simp [connSkipShutdown, StateNew, StateHandshake, StateConnected, StateClosed] <;>
      exact fun _ => rfl
  · intro h
    cases events <;> simp [shutdownLoop, h]
  · intro h
    simp [shutdownLoop, h]

theorem shutdown_spec_witness :
    shutdownLoop [⟨StateConnected, 5⟩] [] = ShutdownResult.drained :=
  ((shutdown_spec [⟨StateConnected, 5⟩] [] ⟨StateConnected, 5⟩
    (Or.inr (Or.inr (Or.inl rfl)))).2.2.2.2.1) (by decide)

/-- Claim C10: `RemoveUser` is atomic on error — an absent nick yields an
error with the members map and all three role subsets untouched; a
present nick is deleted from the members map and all three role subsets,
preserving the invariant that role-subset keys are members. -/
theorem removeUser_atomic (ch : ChannelRec) (nick : String) :
    (goExists ch.nicks nick = false → removeUser ch nick = (true, ch))
    ∧ (goExists ch.nicks nick = true →
        (removeUser ch nick).1 = false
        ∧ (removeUser ch nick).2.nicks = goDelete ch.nicks nick
        ∧ (removeUser ch nick).2.ops = goDelete ch.ops nick
        ∧ (removeUser ch nick).2.halfops = goDelete ch.halfops nick
        ∧ (removeUser ch nick).2.voiced = goDelete ch.voiced nick)
    ∧ (roleInvariant ch → roleInvariant (removeUser ch nick).2) := by
  refine ⟨?_, ?_, ?_⟩
  · intro h
    simp [removeUser, h]
  · intro h
    simp [removeUser, h]
  · intro hinv
    by_cases h : goExists ch.nicks nick
    · intro k
      have hk := hinv k
      simp only [removeUser, h, Bool.not_true, Bool.false_eq_true, if_false]
      simp only [roleInvariant] at *
      simp only [goExists_goDelete]
      split_ifs with hkn
      · simp
      · simpa using hk
    · simp [removeUser, h]
      exact hinv

theorem removeUser_atomic_witness :
    (removeUser
        { name := "#room",
          nicks := [( "ada", ⟨ "ada", "ada" ⟩ )],
          ops := [( "ada", ⟨ "ada", "ada" ⟩ )] } "ada").1 = false
    ∧ removeUser
        { name := "#room",
          nicks := [( "ada", ⟨ "ada", "ada" ⟩ )],
          ops := [( "ada", ⟨ "ada", "ada" ⟩ )] } "bob"
      = (true,
        { name := "#room",
          nicks := [( "ada", ⟨ "ada", "ada" ⟩ )],
          ops := [( "ada", ⟨ "ada", "ada" ⟩ )] }) :=
  ⟨((removeUser_atomic
      { name := "#room",
        nicks := [( "ada", ⟨ "ada", "ada" ⟩ )],
        ops := [( "ada", ⟨ "ada", "ada" ⟩ )] } "ada").2.1 (by decide)).1,
    (removeUser_atomic
      { name := "#room",
        nicks := [( "ada", ⟨ "ada", "ada" ⟩ )],
        ops := [( "ada", ⟨ "ada", "ada" ⟩ )] } "bob").1 (by decide)⟩

theorem parse_eq_parseTrimmed (s : List Char) (h4 : 4 ≤ s.length)
    (hle : s.length ≤ MaxTagsLength + MaxMsgLength) :
    parse s = parseTrimmed (trimSpace s) := by
  simp only [parse]
  rw [if_neg (Nat.not_lt.mpr h4), if_neg (Nat.not_lt.mpr hle)]

/-- Claim C6 (amended): the rejection checks of `Parse` apply in program
order — too-short first, then too-long against the combined limit, then
(after trimming) whitespace-only, then prefixed-from-client.  An untagged
line is then handled whole, and a tagged line is handled on the remainder
after the tag segment is stripped at the first space; in either case, for
a segment within the per-message length limit that does not start with
`:`, more than 15 middle parameters (the fields after the command of the
part before the first `:`) is rejected too-many-params, while 15 or fewer
are accepted — identically for tagged and untagged lines. -/
theorem parse_reject_rules (s : List Char) :
    (s.length < 4 → (parse s).result = ParseResult.error ParseError.tooShort)
    ∧ (MaxTagsLength + MaxMsgLength < s.length →
        (parse s).result = ParseResult.error ParseError.tooLong)
    ∧ (4 ≤ s.length → s.length ≤ MaxTagsLength + MaxMsgLength → trimSpace s = [] →
        (parse s).result = ParseResult.error ParseError.whitespace)
    ∧ (∀ t : List Char, 4 ≤ s.length → s.length ≤ MaxTagsLength + MaxMsgLength →
        trimSpace s = ':' :: t → (parse s).result = ParseResult.error ParseError.prefixed)
    ∧ (∀ (c : Char) (t : List Char),
        4 ≤ s.length → s.length ≤ MaxTagsLength + MaxMsgLength →
        trimSpace s = c :: t → ¬c = ':' → ¬c = '@' →
        parse s = parseMain [] (c :: t))
    ∧ (∀ (rest raw rem : List Char),
        4 ≤ s.length → s.length ≤ MaxTagsLength + MaxMsgLength →
        trimSpace s = '@' :: rest → splitOnce ' ' rest = some (raw, rem) →
        parse s = parseMain (parseTags raw) rem)
    ∧ (∀ (tags : List (List Char × List Char)) (c : Char) (t cmd : List Char)
        (args : List (List Char)),
        (c :: t).length ≤ MaxMsgLength → ¬c = ':' →
        fields (splitLeft ':' (c :: t)) = cmd :: args →
        ((MaxMsgParams < args.length →
            (parseMain tags (c :: t)).result = ParseResult.error ParseError.tooManyParams)
          ∧ (args.length ≤ MaxMsgParams →
            ∃ m : Message, (parseMain tags (c :: t)).result = ParseResult.ok m))) := by
  refine ⟨?_, ?_, ?_, ?_, ?_, ?_, ?_⟩
  · intro h
    simp [parse, h]
  · intro h
    have h4 : ¬s.length < 4 := by
      have hbig : (4 : Nat) ≤ MaxTagsLength + MaxMsgLength := by decide
      omega
    simp only [parse]
    rw [if_neg h4, if_pos h]
  · intro h4 hle ht
    rw [parse_eq_parseTrimmed s h4 hle, ht]
    rfl
  · intro t h4 hle ht
    rw [parse_eq_parseTrimmed s h4 hle, ht]
    simp [parseTrimmed]
  · intro c t h4 hle ht hc1 hc2
    rw [parse_eq_parseTrimmed s h4 hle, ht]
    simp only [parseTrimmed]
    rw [if_neg hc1, if_neg hc2]
  · intro rest raw rem h4 hle ht hsplit
    rw [parse_eq_parseTrimmed s h4 hle, ht]
    simp only [parseTrimmed]
    rw [if_neg (by decide : ¬('@' : Char) = ':')]
    simp [hsplit]
  · intro tags c t cmd args hlen hc1 hfields
    simp only [parseMain]
    rw [if_neg (Nat.not_lt.mpr hlen), if_neg hc1, hfields]
    cases args with
    | nil =>
      constructor
      · intro hgt
        simp [MaxMsgParams] at hgt
      · intro _
        exact ⟨_, rfl⟩
    | cons a args2 =>
      constructor
      · intro hgt
        simp only [buildMsg]
        rw [if_pos hgt]
      · intro hle2
        simp only [buildMsg]
        rw [if_neg (Nat.not_lt.mpr hle2)]
        exact ⟨_, rfl⟩

theorem parse_reject_rules_witness :
    (parse ( "@k=v A b c d e f g h i j k l m n o p q".toList )).result
      = ParseResult.error ParseError.tooManyParams
    ∧ (parse ( "A b c d e f g h i j k l m n o p q".toList )).result
      = ParseResult.error ParseError.tooManyParams := by
  constructor
  · have heq :=
      (parse_reject_rules ( "@k=v A b c d e f g h i j k l m n o p q".toList )).2.2.2.2.2.1
        ( "k=v A b c d e f g h i j k l m n o p q".toList ) ( "k=v".toList )
        ( "A b c d e f g h i j k l m n o p q".toList )
        (by decide) (by decide) (by decide) (by decide)
    rw [heq]
    exact ((parse_reject_rules ( "@k=v A b c d e f g h i j k l m n o p q".toList )).2.2.2.2.2.2
      (parseTags ( "k=v".toList )) 'A' ( " b c d e f g h i j k l m n o p q".toList )
      ( "A".toList ) (fields ( "b c d e f g h i j k l m n o p q".toList ))
      (by decide) (by decide) (by decide)).1 (by decide)
  · have heq :=
      (parse_reject_rules ( "A b c d e f g h i j k l m n o p q".toList )).2.2.2.2.1
        'A' ( " b c d e f g h i j k l m n o p q".toList )
        (by decide) (by decide) (by decide) (by decide) (by decide)
    rw [heq]
    exact ((parse_reject_rules ( "A b c d e f g h i j k l m n o p q".toList )).2.2.2.2.2.2
      [] 'A' ( " b c d e f g h i j k l m n o p q".toList )
      ( "A".toList ) (fields ( "b c d e f g h i j k l m n o p q".toList ))
      (by decide) (by decide) (by decide)).1 (by decide)

end Dircd
